import Mathlib

/-!
Shallow embedding of the splunk-go-sdk client library.

The Go sources embedded here are:
  * `internal/splunk/splunk.go` — `Client`, `Event`, `NewClient`, `Search`
    (single-argument variant), `SendEvents`, `prepareHttpRequest`,
    `setAuthHeader`, `parseSplunkSearchResults`;
  * the unnamed library variant (varargs `Search` with option parsing),
    whose `Client`, `Event`, `NewClient`, `SendEvents`, `setAuthHeader` and
    `parseSplunkSearchResults` are textually identical to the ones in
    `internal/splunk/splunk.go`.

Modelling conventions:
  * Go strings are Lean `String`s; byte-level comparisons use the UTF-8
    bytes where ordering matters (JSON object key sorting).
  * `map[string]any` event payloads are modelled by the `JValue` family
    below; the constructor `JValue.chanValue` stands for Go values that
    `encoding/json` cannot marshal (channels, functions), so that the
    marshal step is fallible exactly where the Go code's is.
  * The HTTP transport (`http.Client.Do`) is a parameter
    `Transport : Request → Except String Response`; an `Except.error`
    models a network failure of `Do`.  `http.NewRequest` fails only when
    its URL argument cannot be parsed by `net/url`; URLs are opaque
    strings in this embedding, so request construction is total.
  * Functions that execute requests return, besides their Go result, the
    list of HTTP requests issued, in issue order, so that claims about
    which requests go on the wire are statable.
-/

namespace SplunkSdk

/-! ### Strings and byte-level helpers -/

/-- The code points of a string, as `Nat`s.  Go compares strings
byte-wise over UTF-8, and UTF-8 byte order coincides with code-point
order, so lexicographic comparison of code points models Go's string
order exactly. -/
def stringBytes (s : String) : List Nat :=
  s.data.map (fun ch => ch.toNat)

/-- `strings.Join(elems, sep)` from the Go standard library. -/
def stringsJoin (sep : String) : List String → String
  | [] => ""
  | [a] => a
  | a :: b :: rest => a ++ sep ++ stringsJoin sep (b :: rest)

/-- `strings.TrimRight(s, "/")`: drop all trailing `/` characters. -/
def trimRightSlash (s : String) : String :=
  String.mk ((s.data.reverse.dropWhile (fun ch => ch == '/')).reverse)

/-- `strings.SplitN(s, sep, 2)` for a one-character separator: one part
when the separator does not occur, otherwise the part before the first
occurrence and everything after it. -/
def splitN2 (s : String) (sep : Char) : List String :=
  match s.data.drop ((s.data.takeWhile (fun ch => ch != sep)).length) with
  | [] => [String.mk (s.data.takeWhile (fun ch => ch != sep))]
  | _ :: rest => [String.mk (s.data.takeWhile (fun ch => ch != sep)), String.mk rest]

/-- Byte-wise lexicographic `≤` on strings, the order `sort.Strings`
uses (UTF-8 byte order coincides with code-point order). -/
def bytesLe : List Nat → List Nat → Bool
  | [], _ => true
  | _ :: _, [] => false
  | a :: as, b :: bs =>
    if a < b then true
    else if b < a then false
    else bytesLe as bs

/-- Whether `pat` is an initial segment of `s`. -/
def startsWithList : List Char → List Char → Bool
  | [], _ => true
  | _ :: _, [] => false
  | p :: ps, c :: cs => p == c && startsWithList ps cs

/-- Whether `pat` occurs contiguously inside `s`. -/
def infixOfList (pat s : List Char) : Bool :=
  match s with
  | [] => pat.isEmpty
  | _ :: cs => startsWithList pat s || infixOfList pat cs

/-- Whether `pat` occurs inside `s` as a contiguous substring. -/
def containsSubstr (s pat : String) : Bool :=
  infixOfList pat.data s.data

/-- Split a character list at every occurrence of a separator. -/
def splitOnChar (sep : Char) : List Char → List (List Char)
  | [] => [[]]
  | c :: rest =>
    if c == sep then [] :: splitOnChar sep rest
    else
      match splitOnChar sep rest with
      | [] => [[c]]
      | g :: gs => (c :: g) :: gs

/-- The `&`-separated fields of a form-encoded body, as the receiving
server splits them. -/
def formFields (s : String) : List String :=
  (splitOnChar '&' s.data).map String.mk

/-! ### JSON values and `encoding/json` marshalling -/

mutual
/-- A Go `any` value as `encoding/json` sees it.  `chanValue` models the
non-serialisable Go values (channels, functions) that make
`json.Marshal` return an error. -/
inductive JValue : Type where
  | null : JValue
  | bool (b : Bool) : JValue
  | num (n : Int) : JValue
  | str (s : String) : JValue
  | arr (xs : JArray) : JValue
  | obj (fs : JObject) : JValue
  | chanValue : JValue

/-- A JSON array (a Go `[]any`). -/
inductive JArray : Type where
  | nil : JArray
  | cons (hd : JValue) (tl : JArray) : JArray

/-- A JSON object (a Go `map[string]any`; Go map keys are unique). -/
inductive JObject : Type where
  | nil : JObject
  | cons (key : String) (val : JValue) (tl : JObject) : JObject
end

/-- Lower-case hexadecimal digit. -/
def hexDigit (n : Nat) : Char :=
  "0123456789abcdef".data.getD n '0'

/-- Escape one character the way `encoding/json` does with its default
HTML escaping (`"` `\` control characters, `<` `>` `&`). -/
def escapeChar (ch : Char) : String :=
  if ch == '"' then "\\\""
  else if ch == '\\' then "\\\\"
  else if ch == '\n' then "\\n"
  else if ch == '\r' then "\\r"
  else if ch == '\t' then "\\t"
  else if ch.toNat < 0x20 then
    String.mk ['\\', 'u', '0', '0', hexDigit (ch.toNat / 16), hexDigit (ch.toNat % 16)]
  else if ch == '<' || ch == '>' || ch == '&' then
    String.mk ['\\', 'u', '0', '0', hexDigit (ch.toNat / 16), hexDigit (ch.toNat % 16)]
  else if ch.toNat == 0x2028 || ch.toNat == 0x2029 then
    String.mk ['\\', 'u', '2', '0', '2', hexDigit (ch.toNat % 16)]
  else String.singleton ch

/-- A JSON string literal for `s`, with `encoding/json` escaping. -/
def jsonQuote (s : String) : String :=
  "\"" ++ String.join (s.data.map escapeChar) ++ "\""

/-- Insert an encoded field into a key-sorted list (Go map keys are
distinct, so ties never occur). -/
def insertPair (p : String × String) : List (String × String) → List (String × String)
  | [] => [p]
  | q :: rest =>
    if bytesLe (stringBytes p.1) (stringBytes q.1) then p :: q :: rest
    else q :: insertPair p rest

/-- Sort encoded object fields by key, as `encoding/json` sorts Go map
keys before emitting them. -/
def sortPairs : List (String × String) → List (String × String)
  | [] => []
  | p :: rest => insertPair p (sortPairs rest)

mutual
/-- `json.Marshal`: fails exactly on values containing a
non-serialisable Go value; otherwise emits compact JSON, object keys in
byte order. -/
def jsonMarshal : JValue → Except String String
  | .null => .ok "null"
  | .bool true => .ok "true"
  | .bool false => .ok "false"
  | .num n => .ok (toString n)
  | .str s => .ok (jsonQuote s)
  | .arr xs =>
    match jsonMarshalArray xs with
    | .error e => .error e
    | .ok es => .ok ("[" ++ stringsJoin "," es ++ "]")
  | .obj fs =>
    match jsonMarshalObject fs with
    | .error e => .error e
    | .ok ps =>
      .ok ("\x7b" ++
        stringsJoin "," ((sortPairs ps).map (fun p => jsonQuote p.1 ++ ":" ++ p.2)) ++
        "\x7d")
  | .chanValue => .error "json: unsupported type: chan"

/-- Marshal the elements of a JSON array, in order, stopping at the
first failure. -/
def jsonMarshalArray : JArray → Except String (List String)
  | .nil => .ok []
  | .cons v tl =>
    match jsonMarshal v with
    | .error e => .error e
    | .ok s =>
      match jsonMarshalArray tl with
      | .error e => .error e
      | .ok rest => .ok (s :: rest)

/-- Marshal the fields of a JSON object to `(key, encoded value)`
pairs, stopping at the first failure. -/
def jsonMarshalObject : JObject → Except String (List (String × String))
  | .nil => .ok []
  | .cons k v tl =>
    match jsonMarshal v with
    | .error e => .error e
    | .ok s =>
      match jsonMarshalObject tl with
      | .error e => .error e
      | .ok rest => .ok ((k, s) :: rest)
end

/-! ### HTTP requests, responses and the transport -/

/-- An outgoing HTTP request (`http.Request`: method, URL, headers,
body as the string handed to `strings.NewReader`). -/
structure Request where
  Method : String
  URL : String
  Header : List (String × String)
  Body : String
deriving DecidableEq

/-- An HTTP response (`http.Response`: status code, status line text,
fully-read body). -/
structure Response where
  StatusCode : Nat
  Status : String
  Body : String
deriving DecidableEq

/-- `http.Header.Set`: replace any existing values for the key. -/
def headerSet (hs : List (String × String)) (k v : String) : List (String × String) :=
  hs.filter (fun p => p.1 != k) ++ [(k, v)]

/-- `http.Header.Get`: the value stored for the key, if any. -/
def headerGet (hs : List (String × String)) (k : String) : Option String :=
  (hs.find? (fun p => p.1 == k)).map (fun p => p.2)

/-- The network: what `c.HTTPClient.Do` answers for each request.  An
`Except.error` is a transport-level failure of `Do`. -/
abbrev Transport := Request → Except String Response

/-! ### Base64 and basic authentication -/

/-- The standard base64 alphabet. -/
def base64Chars : List Char :=
  "ABCDEFGHIJKLMNOPQRSTUVWXYZabcdefghijklmnopqrstuvwxyz0123456789+/".data

/-- The base64 digit for a 6-bit value. -/
def base64Char (n : Nat) : Char :=
  base64Chars.getD n 'A'

/-- Standard base64 with padding over a byte sequence. -/
def base64Encode : List Nat → String
  | [] => ""
  | [a] =>
    String.mk [base64Char (a / 4), base64Char (a % 4 * 16), '=', '=']
  | [a, b] =>
    String.mk [base64Char (a / 4), base64Char (a % 4 * 16 + b / 16),
               base64Char (b % 16 * 4), '=']
  | a :: b :: c :: rest =>
    String.mk [base64Char (a / 4), base64Char (a % 4 * 16 + b / 16),
               base64Char (b % 16 * 4 + c / 64), base64Char (c % 64)] ++
      base64Encode rest

/-- The header value `http.Request.SetBasicAuth` installs:
`Basic base64(username ++ ":" ++ password)`. -/
def basicAuthValue (username password : String) : String :=
  "Basic " ++ base64Encode (stringBytes (username ++ ":" ++ password))

/-- `req.SetBasicAuth(username, password)`. -/
def setBasicAuth (req : Request) (username password : String) : Request :=
  { req with Header := headerSet req.Header "Authorization" (basicAuthValue username password) }

/-! ### The client -/

/-- `Client` from `splunk.go`.  The `HTTPClient` field is not part of
the state here: the transport it provides is the `Transport` parameter
of the operations. -/
structure Client where
  BaseURL : String
  Username : String
  Password : String
  Token : String
deriving DecidableEq

/-- `Event` from `splunk.go`: a timestamp and an arbitrary payload. -/
structure Event where
  Time : Int
  Event : JValue

/-- `NewClient` from `splunk.go`.  The Go composite literal sets
`BaseURL`, `Username` and `Token` but omits `Password`, which is
therefore left at its zero value `""`. -/
def NewClient (baseURL username password token : String) : Except String Client :=
  if token = "" ∧ (username = "" ∨ password = "") then
    .error "either a token or a username and password must be provided"
  else
    .ok { BaseURL := baseURL, Username := username, Password := "", Token := token }

/-- `setAuthHeader` from `splunk.go`: bearer token if one is set, else
basic auth if both username and password are set, else an error. -/
def setAuthHeader (c : Client) (req : Request) : Except String Request :=
  if c.Token ≠ "" then
    .ok { req with Header := headerSet req.Header "Authorization" ("Bearer " ++ c.Token) }
  else if c.Username ≠ "" ∧ c.Password ≠ "" then
    .ok (setBasicAuth req c.Username c.Password)
  else
    .error "no authentication credentials provided"

/-! ### Search request construction (varargs `Search` variant) -/

/-- One iteration of the option-parsing loop in `Search`: the
accumulator is `(execMode, earliestTime, latestTime)`; an option
without `=` or with an unrecognised key leaves it unchanged. -/
def applySearchOption (acc : String × String × String) (opt : String) :
    String × String × String :=
  match splitN2 opt '=' with
  | [key, value] =>
    if key = "exec_mode" then (value, acc.2.1, acc.2.2)
    else if key = "earliest_time" then (acc.1, value, acc.2.2)
    else if key = "latest_time" then (acc.1, acc.2.1, value)
    else acc
  | _ => acc

/-- The option-parsing loop of `Search`, starting from the defaults
`("normal", "", "")`. -/
def parseSearchOptions (options : List String) : String × String × String :=
  options.foldl applySearchOption ("normal", "", "")

/-- The form-encoded body `Search` builds: `search` and `exec_mode`
and `output_mode=json` always, `earliest_time`/`latest_time` only when
set, joined with `&`. -/
def searchRequestBody (query : String) (options : List String) : String :=
  let opts := parseSearchOptions options
  let params :=
    ["search=" ++ query, "exec_mode=" ++ opts.1, "output_mode=json"] ++
    (if opts.2.1 ≠ "" then ["earliest_time=" ++ opts.2.1] else []) ++
    (if opts.2.2 ≠ "" then ["latest_time=" ++ opts.2.2] else [])
  stringsJoin "&" params

/-- The parameters that follow the `search` field in the body built by
`Search`; they depend only on the options, never on the query. -/
def searchParamsTail (options : List String) : List String :=
  let opts := parseSearchOptions options
  ["exec_mode=" ++ opts.1, "output_mode=json"] ++
  (if opts.2.1 ≠ "" then ["earliest_time=" ++ opts.2.1] else []) ++
  (if opts.2.2 ≠ "" then ["latest_time=" ++ opts.2.2] else [])

/-- The request-construction phase of the varargs `Search`: POST to
`BaseURL ++ "/services/search/jobs"`, `Content-Type` set, then
`setAuthHeader`. -/
def buildSearchRequest (c : Client) (query : String) (options : List String) :
    Except String Request :=
  setAuthHeader c
    { Method := "POST"
      URL := c.BaseURL ++ "/services/search/jobs"
      Header := headerSet [] "Content-Type" "application/x-www-form-urlencoded"
      Body := searchRequestBody query options }

/-! ### Response parsing (`parseSplunkSearchResults`) -/

/-- JSON insignificant whitespace. -/
def isJsonWs (ch : Char) : Bool :=
  ch == ' ' || ch == '\n' || ch == '\t' || ch == '\r'

/-- Skip insignificant whitespace. -/
def skipWs (cs : List Char) : List Char :=
  cs.dropWhile isJsonWs

/-- Match a literal character sequence and return the rest. -/
def expectLit (lit cs : List Char) : Option (List Char) :=
  if startsWithList lit cs then some (cs.drop lit.length) else none

/-- The value of a hexadecimal digit. -/
def hexVal (c : Char) : Option Nat :=
  if c.isDigit then some (c.toNat - 48)
  else if 'a' ≤ c ∧ c ≤ 'f' then some (c.toNat - 87)
  else if 'A' ≤ c ∧ c ≤ 'F' then some (c.toNat - 55)
  else none

/-- Parse the remainder of a JSON string literal (after the opening
quote), handling escapes. -/
def parseStringRest (fuel : Nat) (cs : List Char) : Option (List Char × List Char) :=
  match fuel, cs with
  | 0, _ => none
  | _, [] => none
  | fuel + 1, c :: rest =>
    if c == '"' then some ([], rest)
    else if c == '\\' then
      match rest with
      | [] => none
      | 'u' :: h1 :: h2 :: h3 :: h4 :: rest2 =>
        match hexVal h1, hexVal h2, hexVal h3, hexVal h4 with
        | some a, some b, some d, some e =>
          (parseStringRest fuel rest2).map
            (fun p => (Char.ofNat (a * 4096 + b * 256 + d * 16 + e) :: p.1, p.2))
        | _, _, _, _ => none
      | e :: rest2 =>
        let decoded :=
          if e == 'n' then '\n' else if e == 't' then '\t'
          else if e == 'r' then '\r' else if e == 'b' then '\x08'
          else if e == 'f' then '\x0c' else e
        (parseStringRest fuel rest2).map (fun p => (decoded :: p.1, p.2))
    else
      (parseStringRest fuel rest).map (fun p => (c :: p.1, p.2))

/-- A natural number from decimal digits. -/
def natFromDigits (ds : List Char) : Nat :=
  ds.foldl (fun a c => a * 10 + (c.toNat - 48)) 0

/-- Drop the fractional/exponent tail of a JSON number. -/
def skipNumTail (cs : List Char) : List Char :=
  cs.dropWhile (fun c => c.isDigit || c == '.' || c == 'e' || c == 'E' || c == '+' || c == '-')

/-- Parse the digits of a JSON number.  Numeric values are modelled as
integers (the fractional part is discarded); no claim depends on
numeric decoding. -/
def parseDigits (cs : List Char) : Option (Nat × List Char) :=
  let ds := cs.takeWhile Char.isDigit
  if ds.isEmpty then none
  else some (natFromDigits ds, skipNumTail (cs.drop ds.length))

/-- Parse a JSON number with optional leading minus. -/
def parseNumber (cs : List Char) : Option (JValue × List Char) :=
  match cs with
  | '-' :: rest => (parseDigits rest).map (fun p => (.num (-(p.1 : Int)), p.2))
  | _ => (parseDigits cs).map (fun p => (.num (p.1 : Int), p.2))

mutual
/-- Parse one JSON value; fuel bounds the recursion (one unit per
consumed opening token suffices). -/
def parseJ : Nat → List Char → Option (JValue × List Char)
  | 0, _ => none
  | fuel + 1, cs =>
    match skipWs cs with
    | [] => none
    | c :: rest =>
      if c == '\x7b' then
        match skipWs rest with
        | '\x7d' :: rest2 => some (.obj .nil, rest2)
        | cs2 => (parseMembers fuel cs2).map (fun p => (.obj p.1, p.2))
      else if c == '[' then
        match skipWs rest with
        | ']' :: rest2 => some (.arr .nil, rest2)
        | cs2 => (parseElements fuel cs2).map (fun p => (.arr p.1, p.2))
      else if c == '"' then
        (parseStringRest (rest.length + 1) rest).map (fun p => (.str (String.mk p.1), p.2))
      else if c == 't' then
        (expectLit ['r', 'u', 'e'] rest).map (fun r => (.bool true, r))
      else if c == 'f' then
        (expectLit ['a', 'l', 's', 'e'] rest).map (fun r => (.bool false, r))
      else if c == 'n' then
        (expectLit ['u', 'l', 'l'] rest).map (fun r => (.null, r))
      else if c == '-' || c.isDigit then parseNumber (c :: rest)
      else none

/-- Parse the members of a non-empty JSON object, up to and including
the closing brace. -/
def parseMembers : Nat → List Char → Option (JObject × List Char)
  | 0, _ => none
  | fuel + 1, cs =>
    match skipWs cs with
    | '"' :: rest =>
      match parseStringRest (rest.length + 1) rest with
      | none => none
      | some (key, rest2) =>
        match skipWs rest2 with
        | ':' :: rest3 =>
          match parseJ fuel rest3 with
          | none => none
          | some (v, rest4) =>
            match skipWs rest4 with
            | ',' :: rest5 =>
              (parseMembers fuel rest5).map
                (fun p => (.cons (String.mk key) v p.1, p.2))
            | '\x7d' :: rest5 => some (.cons (String.mk key) v .nil, rest5)
            | _ => none
        | _ => none
    | _ => none

/-- Parse the elements of a non-empty JSON array, up to and including
the closing bracket. -/
def parseElements : Nat → List Char → Option (JArray × List Char)
  | 0, _ => none
  | fuel + 1, cs =>
    match parseJ fuel cs with
    | none => none
    | some (v, rest) =>
      match skipWs rest with
      | ',' :: rest2 => (parseElements fuel rest2).map (fun p => (.cons v p.1, p.2))
      | ']' :: rest2 => some (.cons v .nil, rest2)
      | _ => none
end

/-- `parseSplunkSearchResults`: decode the response body's first JSON
value into a `map[string]any`; anything but a well-formed JSON object
is a decode error (error texts abbreviated; no claim depends on them). -/
def parseSplunkSearchResults (body : String) : Except String JValue :=
  match parseJ (body.length + 1) body.data with
  | some (v, _) =>
    match v with
    | .obj _ => .ok v
    | _ => .error "json: cannot unmarshal value into map"
  | none => .error "invalid JSON in response body"

/-! ### The varargs `Search` (unnamed library variant) -/

/-- The varargs `Search`: build the request (body, `Content-Type`,
auth), send it, demand status 200, then parse.  Besides the Go result,
the list of requests put on the wire is returned. -/
def Search (c : Client) (tr : Transport) (query : String) (options : List String) :
    Except String JValue × List Request :=
  match buildSearchRequest c query options with
  | .error e => (.error e, [])
  | .ok req =>
    match tr req with
    | .error e => (.error e, [req])
    | .ok resp =>
      if resp.StatusCode ≠ 200 then
        (.error ("search request failed: " ++ resp.Status), [req])
      else
        (parseSplunkSearchResults resp.Body, [req])

/-! ### The single-argument `Search` of `internal/splunk/splunk.go` -/

namespace Internal

/-- `prepareHttpRequest` from `internal/splunk/splunk.go`: fixed body
`search=<query>&exec_mode=oneshot&output_mode=json`, `Content-Type`
set, then `setAuthHeader`. -/
def prepareHttpRequest (c : Client) (query : String) : Except String Request :=
  setAuthHeader c
    { Method := "POST"
      URL := c.BaseURL ++ "/services/search/jobs"
      Header := headerSet [] "Content-Type" "application/x-www-form-urlencoded"
      Body := "search=" ++ query ++ "&exec_mode=oneshot&output_mode=json" }

/-- The single-argument `Search` of `internal/splunk/splunk.go`, built
on `prepareHttpRequest`. -/
def Search (c : Client) (tr : Transport) (query : String) :
    Except String JValue × List Request :=
  match prepareHttpRequest c query with
  | .error e => (.error e, [])
  | .ok req =>
    match tr req with
    | .error e => (.error e, [req])
    | .ok resp =>
      if resp.StatusCode ≠ 200 then
        (.error ("search request failed: " ++ resp.Status), [req])
      else
        (parseSplunkSearchResults resp.Body, [req])

end Internal

/-! ### `SendEvents` -/

/-- The HEC payload for one event: `{"index": ..., "time": ...,
"event": ...}` as a Go map literal. -/
def hecPayload (indexName : String) (e : Event) : JValue :=
  .obj (.cons "index" (.str indexName) (.cons "time" (.num e.Time) (.cons "event" e.Event .nil)))

/-- The marshalled body for one event, as `json.Marshal` produces it. -/
def eventBody (indexName : String) (e : Event) : Except String String :=
  jsonMarshal (hecPayload indexName e)

/-- The headers `SendEvents` sets on each per-event request:
`Authorization: Splunk <token>` then `Content-Type: application/json`. -/
def hecHeader (token : String) : List (String × String) :=
  headerSet (headerSet [] "Authorization" ("Splunk " ++ token)) "Content-Type" "application/json"

/-- The POST request `SendEvents` issues for one marshalled event. -/
def eventReq (token hecURL body : String) : Request :=
  { Method := "POST", URL := hecURL, Header := hecHeader token, Body := body }

/-- The per-event loop of `SendEvents`: marshal, POST, demand status
200; stop at the first failure. -/
def sendLoop (c : Client) (tr : Transport) (hecURL indexName : String) :
    List Event → Except String Unit × List Request
  | [] => (.ok (), [])
  | event :: rest =>
    match eventBody indexName event with
    | .error e => (.error ("failed to marshal event: " ++ e), [])
    | .ok body =>
      let req := eventReq c.Token hecURL body
      match tr req with
      | .error e => (.error ("failed to send event: " ++ e), [req])
      | .ok resp =>
        if resp.StatusCode ≠ 200 then
          (.error ("failed to send event: " ++ resp.Status ++ " - " ++ resp.Body), [req])
        else
          let out := sendLoop c tr hecURL indexName rest
          (out.1, req :: out.2)

/-- `SendEvents` from `splunk.go`: token required up front, then the
per-event loop against `TrimRight(BaseURL, "/") ++
"/services/collector/event"`. -/
def SendEvents (c : Client) (tr : Transport) (indexName : String) (events : List Event) :
    Except String Unit × List Request :=
  if c.Token = "" then (.error "HEC requires a token for authentication", [])
  else sendLoop c tr (trimRightSlash c.BaseURL ++ "/services/collector/event") indexName events

/-- Whether one event makes it through marshal, send and status check. -/
def eventSends (c : Client) (tr : Transport) (hecURL indexName : String) (event : Event) : Bool :=
  match eventBody indexName event with
  | .error _ => false
  | .ok body =>
    match tr (eventReq c.Token hecURL body) with
    | .error _ => false
    | .ok resp => resp.StatusCode == 200

/-- The error `SendEvents` reports if processing stops at this event
(`none` when the event goes through). -/
def eventFailure (c : Client) (tr : Transport) (hecURL indexName : String) (event : Event) :
    Option String :=
  match eventBody indexName event with
  | .error e => some ("failed to marshal event: " ++ e)
  | .ok body =>
    match tr (eventReq c.Token hecURL body) with
    | .error e => some ("failed to send event: " ++ e)
    | .ok resp =>
      if resp.StatusCode ≠ 200 then
        some ("failed to send event: " ++ resp.Status ++ " - " ++ resp.Body)
      else none

/-- Whether one event's payload marshals at all (a failing event still
gets a request on the wire when it marshals but the POST fails). -/
def eventMarshals (indexName : String) (event : Event) : Bool :=
  match eventBody indexName event with
  | .ok _ => true
  | .error _ => false

/-! ### Helper lemmas -/

theorem stringsJoin_cons_cons (sep a b : String) (l : List String) :
    stringsJoin sep (a :: b :: l) = a ++ sep ++ stringsJoin sep (b :: l) := rfl

theorem find?_headerSet (hs : List (String × String)) (k v : String) :
    ((hs.filter (fun p => p.1 != k)) ++ [(k, v)]).find? (fun p => p.1 == k) = some (k, v) := by
  induction hs with
  | nil => simp [List.find?]
  | cons h t ih =>
    rcases hb : (h.1 == k) with _ | _
    · simp only [List.filter_cons, bne, hb, Bool.not_false, if_true, ite_true,
        List.cons_append, List.find?_cons, cond_false]
      exact ih
    · simp only [List.filter_cons, bne, hb, Bool.not_true, if_false, ite_false]
      exact ih

theorem headerGet_headerSet_self (hs : List (String × String)) (k v : String) :
    headerGet (headerSet hs k v) k = some v := by
  simp [headerGet, headerSet, find?_headerSet]

theorem bearer_ne_basic (t x : String) : "Bearer " ++ t ≠ "Basic " ++ x := by
  intro h
  have hd := congrArg String.data h
  simp [String.data_append] at hd

theorem bearer_ne_splunk (t x : String) : "Bearer " ++ t ≠ "Splunk " ++ x := by
  intro h
  have hd := congrArg String.data h
  simp [String.data_append] at hd

theorem splunk_ne_bearer (t x : String) : "Splunk " ++ t ≠ "Bearer " ++ x := by
  intro h
  have hd := congrArg String.data h
  simp [String.data_append] at hd

/-! ### Claim C5 -/

/-- Claim C5: `NewClient` fails with the configuration error if and
only if the token is empty and the username or the password is empty;
any one complete credential set makes construction succeed. -/
theorem claim_C5_newClient_error_iff (baseURL username password token : String) :
    (NewClient baseURL username password token =
        .error "either a token or a username and password must be provided" ↔
      token = "" ∧ (username = "" ∨ password = "")) ∧
    (token ≠ "" ∨ (username ≠ "" ∧ password ≠ "") →
      ∃ cl, NewClient baseURL username password token = .ok cl) := by
  unfold NewClient
  by_cases h : token = "" ∧ (username = "" ∨ password = "")
  · simp only [if_pos h]
    refine ⟨by simp [h], fun hcred => ?_⟩
    rcases h with ⟨ht, hup⟩
    rcases hcred with ht' | ⟨hu, hp⟩
    · exact absurd ht ht'
    · rcases hup with hu' | hp'
      · exact absurd hu' hu
      · exact absurd hp' hp
  · simp [if_neg h, h]

/-- Witness for C5 at a concrete complete credential set. -/
theorem claim_C5_witness :
    ∃ cl, NewClient "http://localhost" "" "" "token123" = .ok cl :=
  (claim_C5_newClient_error_iff "http://localhost" "" "" "token123").2 (Or.inl (by decide))

/-! ### Claim C6 -/

/-- Claim C6: with an empty token, `SendEvents` fails immediately with
the HEC error and issues no request at all, whatever the event list. -/
theorem claim_C6_sendEvents_requires_token (c : Client) (tr : Transport)
    (indexName : String) (events : List Event) (hc : c.Token = "") :
    SendEvents c tr indexName events =
      (.error "HEC requires a token for authentication", []) := by
  simp [SendEvents, hc]

/-- Witness for C6: a token-less client with a non-empty event list. -/
theorem claim_C6_witness :
    (Client.mk "http://localhost:8089" "" "" "").Token = "" ∧
    SendEvents (Client.mk "http://localhost:8089" "" "" "")
        (fun _ => .ok (Response.mk 200 "200 OK" "ok")) "main"
        [Event.mk 1 (.obj (.cons "foo" (.str "bar") .nil))] =
      (.error "HEC requires a token for authentication", []) :=
  ⟨rfl, claim_C6_sendEvents_requires_token _ _ _ _ rfl⟩

/-! ### Claim C2 -/

/-- Claim C2 (code bug): `NewClient` accepts
`("http://localhost", "user", "pass", "")` but stores `Password := ""`
— the composite literal in the source omits the field — so the claim
"stores all four fields verbatim" fails.  The resulting client cannot
even search: `setAuthHeader` finds no usable credentials, although the
repository's own `TestSearch_Success` builds exactly this client and
expects `Search` to succeed. -/
theorem claim_C2_password_dropped :
    NewClient "http://localhost" "user" "pass" "" =
      .ok (Client.mk "http://localhost" "user" "" "") ∧
    (∀ cl, NewClient "http://localhost" "user" "pass" "" = .ok cl → cl.Password ≠ "pass") ∧
    Internal.Search (Client.mk "http://localhost" "user" "" "")
        (fun _ => .ok (Response.mk 200 "200 OK" "\x7b\x7d")) "q" =
      (.error "no authentication credentials provided", []) := by
  refine ⟨by rfl, fun cl h => ?_, by rfl⟩
  rw [show NewClient "http://localhost" "user" "pass" "" =
      .ok (Client.mk "http://localhost" "user" "" "") from rfl] at h
  cases h
  decide

/-! ### Sample inputs used by witnesses -/

/-- A token-authenticated client. -/
def sampleTokenClient : Client := Client.mk "http://localhost:8089" "" "" "test-token"

/-- A transport that always answers 200 with a small JSON object. -/
def sampleOkTransport : Transport := fun _ => .ok (Response.mk 200 "200 OK" "\x7b\"results\":[]\x7d")

/-- A transport that always answers 400. -/
def sampleBadTransport : Transport := fun _ => .ok (Response.mk 400 "400 Bad Request" "bad request")

/-! ### More helper lemmas -/

theorem setAuthHeader_ok_parts (c : Client) (req r : Request)
    (h : setAuthHeader c req = .ok r) :
    r.Method = req.Method ∧ r.URL = req.URL ∧ r.Body = req.Body := by
  unfold setAuthHeader setBasicAuth at h
  split_ifs at h
  · cases h
    exact ⟨rfl, rfl, rfl⟩
  · cases h
    exact ⟨rfl, rfl, rfl⟩

theorem prepareHttpRequest_ok_body (c : Client) (q : String) (req : Request)
    (h : Internal.prepareHttpRequest c q = .ok req) :
    req.Body = "search=" ++ q ++ "&exec_mode=oneshot&output_mode=json" := by
  unfold Internal.prepareHttpRequest at h
  exact (setAuthHeader_ok_parts _ _ _ h).2.2

theorem searchRequestBody_nil (q : String) :
    searchRequestBody q [] = "search=" ++ q ++ "&exec_mode=normal&output_mode=json" := by
  have h : searchRequestBody q [] =
      "search=" ++ q ++ "&" ++ "exec_mode=normal&output_mode=json" := rfl
  rw [h, String.append_assoc]
  rfl

theorem searchRequestBody_eq_tail (q : String) (opts : List String) :
    searchRequestBody q opts =
      "search=" ++ q ++ "&" ++ stringsJoin "&" (searchParamsTail opts) := rfl

/-! ### Claim C3 -/

/-- Claim C3 (counterexample): the single-argument `Search` of
`internal/splunk/splunk.go` builds, for the query `"q"`, a body that
does not contain `exec_mode=normal` — it says `exec_mode=oneshot`. -/
theorem claim_C3_counterexample :
    (Internal.prepareHttpRequest (Client.mk "http://localhost:8089" "" "" "t") "q").map
        (fun r => r.Body) = .ok "search=q&exec_mode=oneshot&output_mode=json" ∧
    containsSubstr "search=q&exec_mode=oneshot&output_mode=json" "exec_mode=normal" = false ∧
    containsSubstr "search=q&exec_mode=oneshot&output_mode=json" "exec_mode=oneshot" = true :=
  ⟨rfl, by decide, by decide⟩

/-- Claim C3 (amended): the varargs `Search` called with no options
builds exactly the body `search=<q>&exec_mode=normal&output_mode=json`
— containing `search=q`, `exec_mode=normal` and `output_mode=json` and
no `earliest_time`/`latest_time` field — while the duplicated
single-argument `Search` of `internal/splunk/splunk.go` instead posts
`search=<q>&exec_mode=oneshot&output_mode=json`. -/
theorem claim_C3_amended (q : String) (c : Client) :
    searchRequestBody q [] = "search=" ++ q ++ "&exec_mode=normal&output_mode=json" ∧
    (∀ req, Internal.prepareHttpRequest c q = .ok req →
      req.Body = "search=" ++ q ++ "&exec_mode=oneshot&output_mode=json") ∧
    containsSubstr (searchRequestBody "q" []) "search=q" = true ∧
    containsSubstr (searchRequestBody "q" []) "exec_mode=normal" = true ∧
    containsSubstr (searchRequestBody "q" []) "output_mode=json" = true ∧
    containsSubstr (searchRequestBody "q" []) "earliest_time" = false ∧
    containsSubstr (searchRequestBody "q" []) "latest_time" = false := by
  refine ⟨searchRequestBody_nil q, fun req h => prepareHttpRequest_ok_body c q req h,
    by decide, by decide, by decide, by decide, by decide⟩

/-- Witness for the amended C3, instantiating the quantifiers at the
sample token client and the query `"q"`. -/
theorem claim_C3_witness :
    searchRequestBody "q" [] = "search=" ++ "q" ++ "&exec_mode=normal&output_mode=json" :=
  (claim_C3_amended "q" sampleTokenClient).1

/-! ### Claim C10 -/

/-- Claim C10: both search variants splice the query verbatim into the
body right after `search=` — no percent-encoding or escaping — so a
query containing `&`/`=` injects extra form fields: with the query
`x&earliest_time=1` and no options the body's `&`-separated fields
include a forged `earliest_time=1`. -/
theorem claim_C10_query_not_escaped :
    (∀ q opts, searchRequestBody q opts =
        "search=" ++ q ++ "&" ++ stringsJoin "&" (searchParamsTail opts)) ∧
    (∀ (c : Client) q req, Internal.prepareHttpRequest c q = .ok req →
        req.Body = "search=" ++ q ++ "&exec_mode=oneshot&output_mode=json") ∧
    formFields (searchRequestBody "x&earliest_time=1" []) =
      ["search=x", "earliest_time=1", "exec_mode=normal", "output_mode=json"] :=
  ⟨fun q opts => searchRequestBody_eq_tail q opts,
   fun c q req h => prepareHttpRequest_ok_body c q req h,
   by decide⟩

/-! ### Claim C7 -/

/-- Claim C7: `Search` applies the recognised `key=value` options —
the concrete call with `exec_mode=blocking`, `earliest_time=1`,
`latest_time=2` produces a body carrying all three overrides — and an
option string without `=` changes nothing at all about the call (so in
particular it causes no error). -/
theorem claim_C7_search_options (c : Client) (tr : Transport) (q opt : String)
    (pre post : List String) (h : '=' ∉ opt.data) :
    Search c tr q (pre ++ opt :: post) = Search c tr q (pre ++ post) ∧
    searchRequestBody "q" ["exec_mode=blocking", "earliest_time=1", "latest_time=2"] =
      "search=q&exec_mode=blocking&output_mode=json&earliest_time=1&latest_time=2" := by
  constructor
  · have hmem : ∀ x ∈ opt.data, (x != '=') = true := by
      intro x hx
      simp only [bne_iff_ne, ne_eq]
      rintro rfl
      exact h hx
    have htake : opt.data.takeWhile (fun ch => ch != '=') = opt.data :=
      List.takeWhile_eq_self_iff.mpr hmem
    have hsplit : splitN2 opt '=' = [opt] := by
      unfold splitN2
      rw [htake, List.drop_length]
    have hstep : ∀ acc, applySearchOption acc opt = acc := by
      intro acc
      simp [applySearchOption, hsplit]
    have hparse : parseSearchOptions (pre ++ opt :: post) = parseSearchOptions (pre ++ post) := by
      unfold parseSearchOptions
      rw [List.foldl_append, List.foldl_append, List.foldl_cons, hstep]
    simp [Search, buildSearchRequest, searchRequestBody, hparse]
  · decide

/-- Witness for C7: the malformed option `invalidoption` is dropped
from a concrete `Search` call without error. -/
theorem claim_C7_witness :
    Search sampleTokenClient sampleOkTransport "foo" (["invalidoption"] ++ []) =
      Search sampleTokenClient sampleOkTransport "foo" ([] ++ []) :=
  (claim_C7_search_options sampleTokenClient sampleOkTransport "foo" "invalidoption"
    [] [] (by decide)).1

/-! ### Claim C8 -/

theorem startsWithList_self (l : List Char) : startsWithList l l = true := by
  induction l with
  | nil => rfl
  | cons c cs ih => simp [startsWithList, ih]

theorem infixOfList_append_self (pat pre : List Char) :
    infixOfList pat (pre ++ pat) = true := by
  induction pre with
  | nil =>
    cases pat with
    | nil => rfl
    | cons p ps => simp [infixOfList, startsWithList_self]
  | cons c cs ih => simp [infixOfList, ih]

theorem containsSubstr_append_self (x s : String) : containsSubstr (x ++ s) s = true := by
  unfold containsSubstr
  rw [String.data_append]
  exact infixOfList_append_self s.data x.data

/-- Claim C8: a non-200 answer to a search request makes `Search`
return the error `search request failed: <status text>` — an error
containing the status text — and the response body is never parsed:
replacing the body with anything whatsoever leaves the result
unchanged. -/
theorem claim_C8_non200_search (c : Client) (tr : Transport) (q : String) (opts : List String)
    (req : Request) (resp : Response)
    (h1 : buildSearchRequest c q opts = .ok req)
    (h2 : tr req = .ok resp)
    (h3 : resp.StatusCode ≠ 200) :
    Search c tr q opts = (.error ("search request failed: " ++ resp.Status), [req]) ∧
    containsSubstr ("search request failed: " ++ resp.Status) resp.Status = true ∧
    (∀ b2, Search c (fun r =>
        match tr r with
        | .ok rsp => .ok (Response.mk rsp.StatusCode rsp.Status b2)
        | .error e => .error e) q opts =
      (.error ("search request failed: " ++ resp.Status), [req])) ∧
    (∀ req2 resp2, Internal.prepareHttpRequest c q = .ok req2 → tr req2 = .ok resp2 →
      resp2.StatusCode ≠ 200 →
      Internal.Search c tr q =
        (.error ("search request failed: " ++ resp2.Status), [req2]) ∧
      (∀ b2, Internal.Search c (fun r =>
          match tr r with
          | .ok rsp => .ok (Response.mk rsp.StatusCode rsp.Status b2)
          | .error e => .error e) q =
        (.error ("search request failed: " ++ resp2.Status), [req2]))) := by
  refine ⟨?_, containsSubstr_append_self _ _, ?_, ?_⟩
  · simp [Search, h1, h2, h3]
  · intro b2
    simp [Search, h1, h2, h3]
  · intro req2 resp2 g1 g2 g3
    constructor
    · simp [Internal.Search, g1, g2, g3]
    · intro b2
      simp [Internal.Search, g1, g2, g3]

/-- The concrete search request `buildSearchRequest` produces for the
sample token client and query `"q"`. -/
def sampleSearchReq : Request :=
  Request.mk "POST" "http://localhost:8089/services/search/jobs"
    [("Content-Type", "application/x-www-form-urlencoded"),
     ("Authorization", "Bearer test-token")]
    "search=q&exec_mode=normal&output_mode=json"

/-- Witness for C8: a 400 answer at concrete inputs. -/
theorem claim_C8_witness :
    buildSearchRequest sampleTokenClient "q" [] = .ok sampleSearchReq ∧
    Search sampleTokenClient sampleBadTransport "q" [] =
      (.error ("search request failed: " ++ "400 Bad Request"), [sampleSearchReq]) :=
  ⟨rfl, (claim_C8_non200_search sampleTokenClient sampleBadTransport "q" [] sampleSearchReq
      (Response.mk 400 "400 Bad Request" "bad request") rfl rfl (by decide)).1⟩

/-! ### Claim C4 -/

/-- Claim C4: authentication of a search request is decided by exactly
three ordered branches.  A non-empty token always yields the
bearer-token header — never basic auth, whatever the username and
password; with an empty token, a complete username/password pair
yields HTTP basic authentication; with neither, `setAuthHeader` fails
with the authentication error and `Search` issues no request at all. -/
theorem claim_C4_auth_branches (c : Client) (req : Request) :
    (c.Token ≠ "" →
      setAuthHeader c req =
        .ok (Request.mk req.Method req.URL
          (headerSet req.Header "Authorization" ("Bearer " ++ c.Token)) req.Body) ∧
      headerGet (headerSet req.Header "Authorization" ("Bearer " ++ c.Token)) "Authorization" =
        some ("Bearer " ++ c.Token) ∧
      (∀ x, some ("Bearer " ++ c.Token) ≠ some ("Basic " ++ x))) ∧
    (c.Token = "" → c.Username ≠ "" → c.Password ≠ "" →
      setAuthHeader c req = .ok (setBasicAuth req c.Username c.Password) ∧
      headerGet (setBasicAuth req c.Username c.Password).Header "Authorization" =
        some ("Basic " ++ base64Encode (stringBytes (c.Username ++ ":" ++ c.Password)))) ∧
    (c.Token = "" → (c.Username = "" ∨ c.Password = "") →
      setAuthHeader c req = .error "no authentication credentials provided" ∧
      (∀ tr q opts, Search c tr q opts =
        (.error "no authentication credentials provided", []))) := by
  refine ⟨fun ht => ⟨?_, headerGet_headerSet_self _ _ _, fun x hx =>
      bearer_ne_basic c.Token x (Option.some.inj hx)⟩,
    fun ht hu hp => ⟨?_, ?_⟩, fun ht hup => ⟨?_, ?_⟩⟩
  · simp [setAuthHeader, ht]
  · simp [setAuthHeader, ht, hu, hp]
  · exact headerGet_headerSet_self _ _ _
  · have hcond : ¬(c.Username ≠ "" ∧ c.Password ≠ "") := by
      rcases hup with h | h <;> simp [h]
    simp [setAuthHeader, ht, hcond]
  · intro tr q opts
    have hcond : ¬(c.Username ≠ "" ∧ c.Password ≠ "") := by
      rcases hup with h | h <;> simp [h]
    have herr : buildSearchRequest c q opts =
        .error "no authentication credentials provided" := by
      simp [buildSearchRequest, setAuthHeader, ht, hcond]
    simp [Search, herr]

/-- Witness for C4: each of the three branches at a concrete client. -/
theorem claim_C4_witness :
    setAuthHeader (Client.mk "h" "user" "pass" "tok") (Request.mk "POST" "u" [] "") =
      .ok (Request.mk "POST" "u"
        (headerSet [] "Authorization" ("Bearer " ++ "tok")) "") ∧
    setAuthHeader (Client.mk "h" "user" "pass" "") (Request.mk "POST" "u" [] "") =
      .ok (setBasicAuth (Request.mk "POST" "u" [] "") "user" "pass") ∧
    setAuthHeader (Client.mk "h" "" "" "") (Request.mk "POST" "u" [] "") =
      .error "no authentication credentials provided" :=
  ⟨((claim_C4_auth_branches (Client.mk "h" "user" "pass" "tok")
      (Request.mk "POST" "u" [] "")).1 (by decide)).1,
   ((claim_C4_auth_branches (Client.mk "h" "user" "pass" "")
      (Request.mk "POST" "u" [] "")).2.1 rfl (by decide) (by decide)).1,
   ((claim_C4_auth_branches (Client.mk "h" "" "" "")
      (Request.mk "POST" "u" [] "")).2.2 rfl (Or.inl rfl)).1⟩

/-! ### Claim C9 -/

/-- Every request the `SendEvents` loop issues carries the HEC
headers, hence the `Splunk`-scheme `Authorization` value. -/
theorem sendLoop_header (c : Client) (tr : Transport) (hecURL indexName : String)
    (events : List Event) :
    ∀ req ∈ (sendLoop c tr hecURL indexName events).2, req.Header = hecHeader c.Token := by
  induction events with
  | nil => intro req hmem; simp [sendLoop] at hmem
  | cons ev rest ih =>
    intro req hmem
    rcases heb : eventBody indexName ev with e | body
    · simp [sendLoop, heb] at hmem
    · rcases htr : tr (eventReq c.Token hecURL body) with e | resp
      · simp [sendLoop, heb, htr] at hmem
        subst hmem
        rfl
      · by_cases hsc : resp.StatusCode = 200
        · simp [sendLoop, heb, htr, hsc] at hmem
          rcases hmem with hmem | hmem
          · subst hmem; rfl
          · exact ih req hmem
        · simp [sendLoop, heb, htr, hsc] at hmem
          subst hmem
          rfl

/-- Claim C9: with a token present, every search request carries the
bearer-style header `Bearer <token>` (both `Search` variants) while
every ingestion request carries the platform scheme `Splunk <token>`,
and the two header values can never coincide. -/
theorem claim_C9_distinct_schemes (c : Client) (tr : Transport) (q : String)
    (opts : List String) (indexName : String) (events : List Event) (hc : c.Token ≠ "") :
    (∀ req ∈ (Search c tr q opts).2,
      headerGet req.Header "Authorization" = some ("Bearer " ++ c.Token)) ∧
    (∀ req ∈ (Internal.Search c tr q).2,
      headerGet req.Header "Authorization" = some ("Bearer " ++ c.Token)) ∧
    (∀ req ∈ (SendEvents c tr indexName events).2,
      headerGet req.Header "Authorization" = some ("Splunk " ++ c.Token)) ∧
    (∀ x, "Bearer " ++ c.Token ≠ "Splunk " ++ x) ∧
    (∀ x, "Splunk " ++ c.Token ≠ "Bearer " ++ x) := by
  have hget : ∀ v : String,
      headerGet (headerSet (headerSet [] "Content-Type" "application/x-www-form-urlencoded")
        "Authorization" v) "Authorization" = some v := fun v => rfl
  refine ⟨?_, ?_, ?_, fun x => bearer_ne_splunk c.Token x, fun x => splunk_ne_bearer c.Token x⟩
  · intro req hmem
    have hb : buildSearchRequest c q opts =
        .ok (Request.mk "POST" (c.BaseURL ++ "/services/search/jobs")
          (headerSet (headerSet [] "Content-Type" "application/x-www-form-urlencoded")
            "Authorization" ("Bearer " ++ c.Token))
          (searchRequestBody q opts)) := by
      simp [buildSearchRequest, setAuthHeader, hc]
    rcases htr : tr (Request.mk "POST" (c.BaseURL ++ "/services/search/jobs")
        (headerSet (headerSet [] "Content-Type" "application/x-www-form-urlencoded")
          "Authorization" ("Bearer " ++ c.Token))
        (searchRequestBody q opts)) with e | resp
    · simp [Search, hb, htr] at hmem
      subst hmem
      exact hget _
    · by_cases hsc : resp.StatusCode = 200 <;>
        · simp [Search, hb, htr, hsc] at hmem
          subst hmem
          exact hget _
  · intro req hmem
    have hb : Internal.prepareHttpRequest c q =
        .ok (Request.mk "POST" (c.BaseURL ++ "/services/search/jobs")
          (headerSet (headerSet [] "Content-Type" "application/x-www-form-urlencoded")
            "Authorization" ("Bearer " ++ c.Token))
          ("search=" ++ q ++ "&exec_mode=oneshot&output_mode=json")) := by
      simp [Internal.prepareHttpRequest, setAuthHeader, hc]
    rcases htr : tr (Request.mk "POST" (c.BaseURL ++ "/services/search/jobs")
        (headerSet (headerSet [] "Content-Type" "application/x-www-form-urlencoded")
          "Authorization" ("Bearer " ++ c.Token))
        ("search=" ++ q ++ "&exec_mode=oneshot&output_mode=json")) with e | resp
    · simp [Internal.Search, hb, htr] at hmem
      subst hmem
      exact hget _
    · by_cases hsc : resp.StatusCode = 200 <;>
        · simp [Internal.Search, hb, htr, hsc] at hmem
          subst hmem
          exact hget _
  · intro req hmem
    have hloop : req.Header = hecHeader c.Token := by
      refine sendLoop_header c tr
        (trimRightSlash c.BaseURL ++ "/services/collector/event") indexName events req ?_
      simpa [SendEvents, hc] using hmem
    rw [hloop]
    rfl

/-- Witness for C9: the two schemes at the sample token client. -/
theorem claim_C9_witness :
    sampleTokenClient.Token ≠ "" ∧
    "Bearer " ++ sampleTokenClient.Token ≠ "Splunk " ++ "test-token" :=
  ⟨by decide,
   (claim_C9_distinct_schemes sampleTokenClient sampleOkTransport "q" [] "main" []
      (by decide)).2.2.2.1 "test-token"⟩

/-! ### Claim C1: structure of the `SendEvents` loop -/

/-- The loop never issues more requests than there are events. -/
theorem sendLoop_length_le (c : Client) (tr : Transport) (hecURL indexName : String)
    (events : List Event) :
    (sendLoop c tr hecURL indexName events).2.length ≤ events.length := by
  induction events with
  | nil => simp [sendLoop]
  | cons ev rest ih =>
    rcases heb : eventBody indexName ev with e | body
    · simp [sendLoop, heb]
    · rcases htr : tr (eventReq c.Token hecURL body) with e | resp
      · simp [sendLoop, heb, htr]
      · by_cases hsc : resp.StatusCode = 200
        · simp only [sendLoop, heb, htr, hsc, ne_eq, not_true_eq_false, if_false,
            List.length_cons]
          exact Nat.succ_le_succ ih
        · simp [sendLoop, heb, htr, hsc]

/-- The i-th request the loop issues is exactly the POST of the i-th
event's marshalled payload. -/
theorem sendLoop_get (c : Client) (tr : Transport) (hecURL indexName : String)
    (events : List Event) :
    ∀ (i : Nat) (req : Request), (sendLoop c tr hecURL indexName events).2[i]? = some req →
      ∃ (ev : Event) (body : String), events[i]? = some ev ∧ eventBody indexName ev = .ok body ∧
        req = eventReq c.Token hecURL body := by
  induction events with
  | nil => intro i req h; simp [sendLoop] at h
  | cons ev rest ih =>
    intro i req h
    rcases heb : eventBody indexName ev with e | body
    · simp [sendLoop, heb] at h
    · rcases htr : tr (eventReq c.Token hecURL body) with e | resp
      · simp only [sendLoop, heb, htr] at h
        match i with
        | 0 =>
          simp only [List.getElem?_cons_zero, Option.some.injEq] at h
          exact ⟨ev, body, by simp, heb, h.symm⟩
        | i + 1 =>
          simp only [List.getElem?_cons_succ, List.getElem?_nil] at h
          cases h
      · by_cases hsc : resp.StatusCode = 200
        · simp only [sendLoop, heb, htr, hsc, ne_eq, not_true_eq_false, if_false] at h
          match i with
          | 0 =>
            simp at h
            exact ⟨ev, body, by simp, heb, h.symm⟩
          | i + 1 =>
            simp only [List.getElem?_cons_succ] at h
            obtain ⟨ev', body', hev, hbody, hreq⟩ := ih i req h
            exact ⟨ev', body', by simpa using hev, hbody, hreq⟩
        · simp only [sendLoop, heb, htr, hsc, ne_eq, not_false_eq_true, if_true] at h
          match i with
          | 0 =>
            simp only [List.getElem?_cons_zero, Option.some.injEq] at h
            exact ⟨ev, body, by simp, heb, h.symm⟩
          | i + 1 =>
            simp only [List.getElem?_cons_succ, List.getElem?_nil] at h
            cases h

/-- The loop succeeds exactly when every event marshals, sends and
gets a 200 back; in that case there is one request per event. -/
theorem sendLoop_ok_iff (c : Client) (tr : Transport) (hecURL indexName : String)
    (events : List Event) :
    (sendLoop c tr hecURL indexName events).1 = .ok () ↔
      ((sendLoop c tr hecURL indexName events).2.length = events.length ∧
       ∀ ev ∈ events, eventSends c tr hecURL indexName ev = true) := by
  induction events with
  | nil =>
    simp [sendLoop]
  | cons ev rest ih =>
    rcases heb : eventBody indexName ev with e | body
    · simp only [sendLoop, heb]
      constructor
      · intro h; cases h
      · rintro ⟨hlen, hall⟩
        have := hall ev (List.mem_cons_self ev rest)
        simp [eventSends, heb] at this
    · rcases htr : tr (eventReq c.Token hecURL body) with e | resp
      · simp only [sendLoop, heb, htr]
        constructor
        · intro h; cases h
        · rintro ⟨hlen, hall⟩
          have := hall ev (List.mem_cons_self ev rest)
          simp [eventSends, heb, htr] at this
      · by_cases hsc : resp.StatusCode = 200
        · have hsends : eventSends c tr hecURL indexName ev = true := by
            simp [eventSends, heb, htr, hsc]
          simp only [sendLoop, heb, htr, hsc, ne_eq, not_true_eq_false, if_false,
            List.length_cons]
          rw [ih]
          constructor
          · rintro ⟨hlen, hall⟩
            refine ⟨by omega, ?_⟩
            intro ev' hmem
            rcases List.mem_cons.mp hmem with hmem | hmem
            · subst hmem; exact hsends
            · exact hall ev' hmem
          · rintro ⟨hlen, hall⟩
            refine ⟨by omega, ?_⟩
            intro ev' hmem
            exact hall ev' (List.mem_cons_of_mem ev hmem)
        · simp only [sendLoop, heb, htr, hsc, ne_eq, not_false_eq_true, if_true]
          constructor
          · intro h; cases h
          · rintro ⟨hlen, hall⟩
            have := hall ev (List.mem_cons_self ev rest)
            simp [eventSends, heb, htr, hsc] at this

/-- When the loop fails, it fails at the first failing event `k`: the
error describes event `k`, events before `k` were each sent exactly
once with success, and the requests issued are those for events
`0..k-1` plus one for event `k` itself exactly when event `k`'s
payload marshalled (so no request at all for later events). -/
theorem sendLoop_error (c : Client) (tr : Transport) (hecURL indexName : String)
    (events : List Event) :
    ∀ msg, (sendLoop c tr hecURL indexName events).1 = .error msg →
      ∃ k ev, events[k]? = some ev ∧
        (∀ j evj, j < k → events[j]? = some evj →
          eventSends c tr hecURL indexName evj = true) ∧
        eventFailure c tr hecURL indexName ev = some msg ∧
        (sendLoop c tr hecURL indexName events).2.length =
          k + (if eventMarshals indexName ev then 1 else 0) := by
  induction events with
  | nil => intro msg h; simp [sendLoop] at h
  | cons ev rest ih =>
    intro msg h
    rcases heb : eventBody indexName ev with e | body
    · simp only [sendLoop, heb] at h ⊢
      cases h
      refine ⟨0, ev, by simp, fun j evj hj _ => absurd hj (Nat.not_lt_zero j), ?_, ?_⟩
      · simp [eventFailure, heb]
      · simp [eventMarshals, heb]
    · rcases htr : tr (eventReq c.Token hecURL body) with e | resp
      · simp only [sendLoop, heb, htr] at h ⊢
        cases h
        refine ⟨0, ev, by simp, fun j evj hj _ => absurd hj (Nat.not_lt_zero j), ?_, ?_⟩
        · simp [eventFailure, heb, htr]
        · simp [eventMarshals, heb]
      · by_cases hsc : resp.StatusCode = 200
        · have hsends : eventSends c tr hecURL indexName ev = true := by
            simp [eventSends, heb, htr, hsc]
          simp only [sendLoop, heb, htr, hsc, ne_eq, not_true_eq_false, if_false,
            List.length_cons] at h ⊢
          obtain ⟨k, ev', hev, hprior, hfail, hlen⟩ := ih msg h
          refine ⟨k + 1, ev', by simpa using hev, ?_, hfail, by omega⟩
          intro j evj hj hevj
          match j with
          | 0 =>
            simp at hevj
            subst hevj
            exact hsends
          | j + 1 =>
            simp only [List.getElem?_cons_succ] at hevj
            exact hprior j evj (by omega) hevj
        · simp only [sendLoop, heb, htr, hsc, ne_eq, not_false_eq_true, if_true] at h ⊢
          cases h
          refine ⟨0, ev, by simp, fun j evj hj _ => absurd hj (Nat.not_lt_zero j), ?_, ?_⟩
          · simp [eventFailure, heb, htr, hsc]
          · simp [eventMarshals, heb]

/-- Claim C1: with a token present, `SendEvents` walks the events in
input order, issuing exactly one POST per event, to the collector URL,
whose body is the event's own marshalled `{index, time, event}`
payload; it succeeds iff every event goes through (one request each),
and on the first failing event it stops with that event's error,
leaving the earlier events delivered exactly once and never touching
later ones. -/
theorem claim_C1_sendEvents_sequential (c : Client) (tr : Transport)
    (indexName : String) (events : List Event) (hc : c.Token ≠ "") :
    (SendEvents c tr indexName events).2.length ≤ events.length ∧
    (∀ (i : Nat) (req : Request), (SendEvents c tr indexName events).2[i]? = some req →
      ∃ (ev : Event) (body : String), events[i]? = some ev ∧ eventBody indexName ev = .ok body ∧
        req = eventReq c.Token (trimRightSlash c.BaseURL ++ "/services/collector/event") body ∧
        req.Method = "POST" ∧
        req.URL = trimRightSlash c.BaseURL ++ "/services/collector/event") ∧
    ((SendEvents c tr indexName events).1 = .ok () ↔
      ((SendEvents c tr indexName events).2.length = events.length ∧
       ∀ ev ∈ events,
         eventSends c tr (trimRightSlash c.BaseURL ++ "/services/collector/event")
           indexName ev = true)) ∧
    (∀ msg, (SendEvents c tr indexName events).1 = .error msg →
      ∃ k ev, events[k]? = some ev ∧
        (∀ j evj, j < k → events[j]? = some evj →
          eventSends c tr (trimRightSlash c.BaseURL ++ "/services/collector/event")
            indexName evj = true) ∧
        eventFailure c tr (trimRightSlash c.BaseURL ++ "/services/collector/event")
          indexName ev = some msg ∧
        (SendEvents c tr indexName events).2.length =
          k + (if eventMarshals indexName ev then 1 else 0)) := by
  have hSE : SendEvents c tr indexName events =
      sendLoop c tr (trimRightSlash c.BaseURL ++ "/services/collector/event")
        indexName events := by
    simp [SendEvents, hc]
  rw [hSE]
  refine ⟨sendLoop_length_le c tr _ indexName events, ?_,
    sendLoop_ok_iff c tr _ indexName events, sendLoop_error c tr _ indexName events⟩
  intro i req h
  obtain ⟨ev, body, hev, hbody, hreq⟩ := sendLoop_get c tr _ indexName events i req h
  exact ⟨ev, body, hev, hbody, hreq, by rw [hreq]; rfl, by rw [hreq]; rfl⟩

/-- Witness for C1: two concrete events through an all-200 transport. -/
theorem claim_C1_witness :
    sampleTokenClient.Token ≠ "" ∧
    (SendEvents sampleTokenClient sampleOkTransport "main"
        [Event.mk 1234567890 (.obj (.cons "foo" (.str "bar") .nil)),
         Event.mk 1234567891 (.obj (.cons "baz" (.str "qux") .nil))]).2.length ≤ 2 :=
  ⟨by decide,
   (claim_C1_sendEvents_sequential sampleTokenClient sampleOkTransport "main"
      [Event.mk 1234567890 (.obj (.cons "foo" (.str "bar") .nil)),
       Event.mk 1234567891 (.obj (.cons "baz" (.str "qux") .nil))] (by decide)).1⟩

end SplunkSdk
